import Mathlib

/-!
Shallow embedding of the anvill function lifter
(src/anvill/src/Lifters/FunctionLifter.cpp) and proofs about it.

The model follows the source file closely:
memory queries, the instruction decoder's byte-accumulation loop,
target resolution, the SPARC structure-return scan, the per-category
control-flow visitors (as emission traces of IR events), the per-lift
state reset, the top-level checks of LiftFunction, and the
register-type-hint taint machinery.
-/

namespace Anvill

/-- Availability of a byte, as reported by the memory provider
(enum ByteAvailability in the sources). -/
inductive ByteAvailability
  | kUnknown
  | kUnavailable
  | kAvailable
deriving DecidableEq, Repr

/-- Permissions of a byte (enum BytePermission in the sources). -/
inductive BytePermission
  | kUnknown
  | kReadable
  | kReadableWritable
  | kReadableExecutable
  | kReadableWritableExecutable
deriving DecidableEq, Repr

/-- Result of MemoryProvider::Query at one address: the byte value (a uint8_t
in the source, hence Fin 256), its availability, and its permissions. -/
structure ByteQuery where
  byte : Fin 256
  avail : ByteAvailability
  perms : BytePermission
deriving DecidableEq, Repr

/-- A memory provider is a pure oracle from addresses to byte query results
(spec section 4.1: pure, safe on arbitrary addresses). -/
def MemoryProvider := Nat → ByteQuery

/-- The availability test used by the accumulate_inst_byte lambda in
FunctionLifter::DecodeInstructionInto: kUnknown and kUnavailable stop the
accumulation, every other availability (i.e. kAvailable) passes. -/
def availOkForDecode : ByteAvailability → Bool
  | .kUnknown => false
  | .kUnavailable => false
  | .kAvailable => true

/-- The permission test used by accumulate_inst_byte in
FunctionLifter::DecodeInstructionInto: kUnknown, kReadableExecutable and
kReadableWritableExecutable let the byte be pushed, while kReadable and
kReadableWritable stop the accumulation.  The same switch appears in
FunctionLifter::LoadFunctionReturnAddress for the SPARC scan. -/
def permOkForDecode : BytePermission → Bool
  | .kUnknown => true
  | .kReadable => false
  | .kReadableWritable => false
  | .kReadableExecutable => true
  | .kReadableWritableExecutable => true

/-- Whether a queried byte is pushed onto the instruction byte buffer by
accumulate_inst_byte (both the availability and the permission switch pass). -/
def accumulateOk (q : ByteQuery) : Bool :=
  availOkForDecode q.avail && permOkForDecode q.perms

/-- The byte-accumulation loop of FunctionLifter::DecodeInstructionInto:
for i in 0 .. max_inst_size-1, query the byte at addr + i and push it while
accumulate_inst_byte succeeds; stop at the first byte that fails.  The fuel
argument is the number of loop iterations left (max_inst_size at the top
call), and addr advances with each accepted byte. -/
def accumulateBytes (mem : MemoryProvider) (addr : Nat) : Nat → List (Fin 256)
  | 0 => []
  | n + 1 =>
    let q := mem addr
    if accumulateOk q then q.byte :: accumulateBytes mem (addr + 1) n else []

/-- Instruction categories (remill::Instruction::Category), exactly the cases
dispatched by FunctionLifter::VisitInstruction. -/
inductive Category
  | kCategoryInvalid
  | kCategoryError
  | kCategoryNormal
  | kCategoryNoOp
  | kCategoryDirectJump
  | kCategoryIndirectJump
  | kCategoryConditionalIndirectJump
  | kCategoryFunctionReturn
  | kCategoryConditionalFunctionReturn
  | kCategoryDirectFunctionCall
  | kCategoryConditionalDirectFunctionCall
  | kCategoryIndirectFunctionCall
  | kCategoryConditionalIndirectFunctionCall
  | kCategoryConditionalBranch
  | kCategoryAsyncHyperCall
  | kCategoryConditionalAsyncHyperCall
deriving DecidableEq, Repr

/-- The decoded instruction record (remill::Instruction), restricted to the
fields the function lifter reads. -/
structure Instruction where
  pc : Nat
  next_pc : Nat
  delayed_pc : Nat
  branch_taken_pc : Nat
  branch_not_taken_pc : Nat
  category : Category
deriving DecidableEq, Repr

/-- The architecture interface used by DecodeInstructionInto: the maximum
instruction size and the two decode entry points (normal and delayed).
The decoders themselves are external to the lifter and stay abstract. -/
structure Arch where
  MaxInstructionSize : Nat
  DecodeInstruction : Nat → List (Fin 256) → Option Instruction
  DecodeDelayedInstruction : Nat → List (Fin 256) → Option Instruction

/-- FunctionLifter::DecodeInstructionInto: accumulate up to
MaxInstructionSize bytes at addr, then hand the accumulated buffer to the
delayed or the normal decoder according to is_delayed. -/
def DecodeInstructionInto (arch : Arch) (mem : MemoryProvider) (addr : Nat)
    (is_delayed : Bool) : Option Instruction :=
  let bytes := accumulateBytes mem addr arch.MaxInstructionSize
  if is_delayed then arch.DecodeDelayedInstruction addr bytes
  else arch.DecodeInstruction addr bytes

/-- Modelled from the spec: MemoryProvider::IsValidAddress is declared in a
header that is not among these sources.  Per the spec's data model and error
handling design, availability Unknown means the queried address is not a
valid address at all, while Unavailable means the address is valid but the
byte cannot be obtained. -/
def MemoryProvider.IsValidAddress : ByteAvailability → Bool
  | .kUnknown => false
  | _ => true

/-- Modelled from the spec: MemoryProvider::HasByte — only an Available byte
can actually be fetched. -/
def MemoryProvider.HasByte : ByteAvailability → Bool
  | .kAvailable => true
  | _ => false

/-- Modelled from the spec: MemoryProvider::IsExecutable.  Unknown
permissions are accepted as executable, matching the two permission switches
written out inside FunctionLifter.cpp (DecodeInstructionInto and
LoadFunctionReturnAddress). -/
def MemoryProvider.IsExecutable : BytePermission → Bool := permOkForDecode

/-- The declared contract of a machine-code function (FunctionDecl),
restricted to the fields the lifter logic branches on.  The high-level type
and the calling convention stay abstract identifiers; they only matter for
equality. -/
structure FunctionDecl where
  address : Nat
  type : Nat
  calling_convention : Nat
deriving DecidableEq, Repr

/-- FunctionLifter::TryGetTargetFunctionType: compute the redirected address,
query the type provider there first, retry at the original address when the
first query failed and the address was actually redirected, and set the
address field of any found declaration to the redirected address. -/
def TryGetTargetFunctionType (GetRedirection : Nat → Nat)
    (TryGetFunctionTypeAt : Nat → Option FunctionDecl)
    (address : Nat) : Option FunctionDecl :=
  let redirected_addr := GetRedirection address
  let first_try := TryGetFunctionTypeAt redirected_addr
  let opt_function_decl :=
    if first_try.isNone && redirected_addr != address
    then TryGetFunctionTypeAt address
    else first_try
  match opt_function_decl with
  | none => none
  | some function_decl => some { function_decl with address := redirected_addr }

/-- One byte inspection of the SPARC scan in
FunctionLifter::LoadFunctionReturnAddress: the byte is usable only when its
availability is not kUnknown/kUnavailable and its permissions are not
kReadable/kReadableWritable; otherwise the scan gives up (the source logs an
error and returns the default pair). -/
def queryExecByte (mem : MemoryProvider) (a : Nat) : Option (Fin 256) :=
  let q := mem a
  if availOkForDecode q.avail && permOkForDecode q.perms then some q.byte
  else none

/-- The flat 32-bit word assembled by LoadFunctionReturnAddress from the four
bytes at the return point, in big-endian order (enc.flat |= b; enc.flat <<= 8;
repeated).  Each operand is a uint8_t, so the result is below 2^32. -/
def sparcFlatWord (b0 b1 b2 b3 : Fin 256) : Nat :=
  ((b0.val * 256 + b1.val) * 256 + b2.val) * 256 + b3.val

/-- The op field of SPARC Format 0a: bits 30..31 of the flat word. -/
def sparcOp (flat : Nat) : Nat := flat / 2 ^ 30

/-- The op2 field of SPARC Format 0a: bits 22..24 of the flat word. -/
def sparcOp2 (flat : Nat) : Nat := flat / 2 ^ 22 % 8

/-- FunctionLifter::LoadFunctionReturnAddress.  The first component of the
result is the resume address; the second encodes the value wired into the
PC and NEXT_PC pseudo-registers: 0 for the unmodified return program counter
loaded from the State, 4 for that value plus four (the SPARC structure-return
adjustment, ir.CreateAdd(ret_pc, 4) in the source).  On a non-SPARC
architecture the default pair is returned immediately; on SPARC the four
bytes at branch_not_taken_pc are scanned, and any unavailable or
non-executable byte keeps the default. -/
def LoadFunctionReturnAddress (is_sparc : Bool) (mem : MemoryProvider)
    (branch_not_taken_pc : Nat) : Nat × Nat :=
  let pc := branch_not_taken_pc
  if !is_sparc then (pc, 0)
  else
    match queryExecByte mem pc, queryExecByte mem (pc + 1),
          queryExecByte mem (pc + 2), queryExecByte mem (pc + 3) with
    | some b0, some b1, some b2, some b3 =>
      let flat := sparcFlatWord b0 b1 b2 b3
      if sparcOp flat = 0 ∧ sparcOp2 flat = 0 then (pc + 4, 4) else (pc, 0)
    | _, _, _, _ => (pc, 0)

/-- Claim-side test: the byte at a is Available and its permissions are
executable (per the convention of the permission switches in the source). -/
def byteAvailableExecutable (mem : MemoryProvider) (a : Nat) : Bool :=
  ((mem a).avail == ByteAvailability.kAvailable) && permOkForDecode (mem a).perms

/-- Claim-side test: all four bytes at pc .. pc+3 are available and
executable. -/
def fourBytesAvailableExecutable (mem : MemoryProvider) (pc : Nat) : Bool :=
  byteAvailableExecutable mem pc && byteAvailableExecutable mem (pc + 1) &&
  byteAvailableExecutable mem (pc + 2) && byteAvailableExecutable mem (pc + 3)

/-- Claim-side view of the word formed from the four bytes at pc. -/
def fourByteWord (mem : MemoryProvider) (pc : Nat) : Nat :=
  sparcFlatWord (mem pc).byte (mem (pc + 1)).byte (mem (pc + 2)).byte
    (mem (pc + 3)).byte

/-- Claim-side test: the word encodes a SPARC unimp instruction, i.e.
op = 0 and op2 = 0. -/
def isUnimpEncoding (flat : Nat) : Bool :=
  decide (sparcOp flat = 0) && decide (sparcOp2 flat = 0)

/-- The remill intrinsics targeted by calls the lifter emits. -/
inductive Intrinsic
  | error
  | jump
  | function_return
  | async_hyper_call
  | function_call
deriving DecidableEq, Repr

/-- Symbolic values the lifter stores into the PC and NEXT_PC
pseudo-registers. -/
inductive PCValue
  | pcArg
  | retPC
  | retPCPlus4
deriving DecidableEq, Repr

/-- One IR instruction emitted by the lifter, at the granularity the claims
talk about.  brEdge from_pc to_addr stands for an unconditional branch to the
block GetOrCreateBlock returns for the edge (from_pc, to_addr); brBlock
stands for a branch to an already-recorded canonical block; condBr targets
the two freshly created anonymous blocks of a conditional visitor. -/
inductive Instr
  | liftCurrent
  | liftDelayed (on_taken_path : Bool)
  | condBr (taken_blk not_taken_blk : Nat)
  | brEdge (from_pc to_addr : Nat)
  | brBlock (blk : Nat)
  | tailCall (callee : Intrinsic) (state_muted : Bool)
  | addCall (callee : Intrinsic)
  | callNative (addr : Nat)
  | storePC (v : PCValue)
  | storeNextPC (v : PCValue)
  | retMemPtr
deriving DecidableEq, Repr

/-- An emitted instruction tagged with the id of the block it is placed in. -/
abbrev Emitted := Nat × Instr

/-- The environment a visitor runs in: the control-flow provider's
redirection, the type provider, whether declaring and ABI-lowering a resolved
native callee succeeds (DeclareFunction and TryCallNativeFunction both
degrade to the call intrinsic when they fail, so one oracle suffices for the
emitted trace), the architecture's SPARC flag and delay-slot queries, the
memory provider, and the address of the function being lifted. -/
structure LiftEnv where
  GetRedirection : Nat → Nat
  TryGetFunctionTypeAt : Nat → Option FunctionDecl
  nativeCallOk : Nat → Bool
  is_sparc : Bool
  mem : MemoryProvider
  MayHaveDelaySlot : Instruction → Bool
  NextInstructionIsDelayed : Instruction → Bool → Bool
  func_address : Nat

/-- FunctionLifter::VisitDelayedInstruction: lift the delayed instruction
into the block only when the instruction may have a delay slot (the decoder
produced a delayed record) and the architecture says the delayed instruction
executes on this path. -/
def VisitDelayedInstruction (env : LiftEnv) (inst : Instruction) (blk : Nat)
    (on_taken_path : Bool) : List Emitted :=
  if env.MayHaveDelaySlot inst && env.NextInstructionIsDelayed inst on_taken_path
  then [(blk, Instr.liftDelayed on_taken_path)]
  else []

/-- FunctionLifter::CallFunction: resolve inst.branch_taken_pc through
TryGetTargetFunctionType; on success splice in a call to the resolved native
function (unless declaring or ABI-lowering it fails, in which case fall back
to the call intrinsic); on failure call the call intrinsic. -/
def CallFunction (env : LiftEnv) (inst : Instruction) (blk : Nat) :
    List Emitted :=
  match TryGetTargetFunctionType env.GetRedirection env.TryGetFunctionTypeAt
    inst.branch_taken_pc with
  | some other_decl =>
    if env.nativeCallOk other_decl.address
    then [(blk, Instr.callNative other_decl.address)]
    else [(blk, Instr.addCall Intrinsic.function_call)]
  | none => [(blk, Instr.addCall Intrinsic.function_call)]

/-- FunctionLifter::VisitAfterFunctionCall: figure out the resume address and
the return-PC value via LoadFunctionReturnAddress, store that value into both
the PC and NEXT_PC pseudo-registers, and branch to the redirected block for
the resume address. -/
def VisitAfterFunctionCall (env : LiftEnv) (inst : Instruction) (blk : Nat) :
    List Emitted :=
  let r := LoadFunctionReturnAddress env.is_sparc env.mem inst.branch_not_taken_pc
  let v := if r.2 = 4 then PCValue.retPCPlus4 else PCValue.retPC
  [(blk, Instr.storePC v), (blk, Instr.storeNextPC v),
   (blk, Instr.brEdge inst.pc (env.GetRedirection r.1))]

/-- FunctionLifter::VisitInvalid: an error-terminator tail call with the
state escape muted. -/
def VisitInvalid (blk : Nat) : List Emitted :=
  [(blk, Instr.tailCall Intrinsic.error true)]

/-- FunctionLifter::VisitError: lift the delayed instruction (taken path),
then the muted error terminator. -/
def VisitError (env : LiftEnv) (inst : Instruction) (blk : Nat) :
    List Emitted :=
  VisitDelayedInstruction env inst blk true ++
  [(blk, Instr.tailCall Intrinsic.error true)]

/-- FunctionLifter::VisitNormal: branch to the redirected block for
inst.next_pc. -/
def VisitNormal (env : LiftEnv) (inst : Instruction) (blk : Nat) :
    List Emitted :=
  [(blk, Instr.brEdge inst.pc (env.GetRedirection inst.next_pc))]

/-- FunctionLifter::VisitNoOp forwards to VisitNormal. -/
def VisitNoOp (env : LiftEnv) (inst : Instruction) (blk : Nat) :
    List Emitted :=
  VisitNormal env inst blk

/-- FunctionLifter::VisitDirectJump: delayed instruction, then a branch to
the redirected block for inst.branch_taken_pc. -/
def VisitDirectJump (env : LiftEnv) (inst : Instruction) (blk : Nat) :
    List Emitted :=
  VisitDelayedInstruction env inst blk true ++
  [(blk, Instr.brEdge inst.pc (env.GetRedirection inst.branch_taken_pc))]

/-- FunctionLifter::VisitIndirectJump: delayed instruction, then a
(non-muted) tail call to the jump intrinsic. -/
def VisitIndirectJump (env : LiftEnv) (inst : Instruction) (blk : Nat) :
    List Emitted :=
  VisitDelayedInstruction env inst blk true ++
  [(blk, Instr.tailCall Intrinsic.jump false)]

/-- FunctionLifter::VisitConditionalIndirectJump: split on the branch-taken
condition into two fresh blocks; the taken side tail-calls the jump
intrinsic, the not-taken side branches to the block for
inst.branch_not_taken_pc. -/
def VisitConditionalIndirectJump (env : LiftEnv) (inst : Instruction)
    (blk fresh : Nat) : List Emitted :=
  (blk, Instr.condBr fresh (fresh + 1)) ::
  (VisitDelayedInstruction env inst fresh true ++
   VisitDelayedInstruction env inst (fresh + 1) false ++
   [(fresh, Instr.tailCall Intrinsic.jump false),
    (fresh + 1, Instr.brEdge inst.pc
       (env.GetRedirection inst.branch_not_taken_pc))])

/-- FunctionLifter::VisitFunctionReturn: delayed instruction, then a muted
tail call to the function-return intrinsic. -/
def VisitFunctionReturn (env : LiftEnv) (inst : Instruction) (blk : Nat) :
    List Emitted :=
  VisitDelayedInstruction env inst blk true ++
  [(blk, Instr.tailCall Intrinsic.function_return true)]

/-- FunctionLifter::VisitConditionalFunctionReturn: split; the taken side
returns through the muted function-return intrinsic, the not-taken side
falls through to inst.branch_not_taken_pc. -/
def VisitConditionalFunctionReturn (env : LiftEnv) (inst : Instruction)
    (blk fresh : Nat) : List Emitted :=
  (blk, Instr.condBr fresh (fresh + 1)) ::
  (VisitDelayedInstruction env inst fresh true ++
   [(fresh, Instr.tailCall Intrinsic.function_return true)] ++
   VisitDelayedInstruction env inst (fresh + 1) false ++
   [(fresh + 1, Instr.brEdge inst.pc
      (env.GetRedirection inst.branch_not_taken_pc))])

/-- FunctionLifter::VisitDirectFunctionCall: delayed instruction, the call
(CallFunction), then the post-call wiring, all in the incoming block. -/
def VisitDirectFunctionCall (env : LiftEnv) (inst : Instruction) (blk : Nat) :
    List Emitted :=
  VisitDelayedInstruction env inst blk true ++
  CallFunction env inst blk ++
  VisitAfterFunctionCall env inst blk

/-- FunctionLifter::VisitConditionalDirectFunctionCall: split; the taken side
gets the delayed instruction, the call and the post-call wiring; the
not-taken side gets the delayed instruction and a branch to the block for
inst.branch_not_taken_pc.  Note: this function exists in the source but the
dispatch in VisitInstruction never invokes it. -/
def VisitConditionalDirectFunctionCall (env : LiftEnv) (inst : Instruction)
    (blk fresh : Nat) : List Emitted :=
  (blk, Instr.condBr fresh (fresh + 1)) ::
  (VisitDelayedInstruction env inst fresh true ++
   CallFunction env inst fresh ++
   VisitAfterFunctionCall env inst fresh ++
   VisitDelayedInstruction env inst (fresh + 1) false ++
   [(fresh + 1, Instr.brEdge inst.pc
      (env.GetRedirection inst.branch_not_taken_pc))])

/-- FunctionLifter::VisitIndirectFunctionCall: delayed instruction, a
(non-tail) call to the call intrinsic, then the post-call wiring. -/
def VisitIndirectFunctionCall (env : LiftEnv) (inst : Instruction)
    (blk : Nat) : List Emitted :=
  VisitDelayedInstruction env inst blk true ++
  [(blk, Instr.addCall Intrinsic.function_call)] ++
  VisitAfterFunctionCall env inst blk

/-- FunctionLifter::VisitConditionalIndirectFunctionCall: split; taken side
calls the call intrinsic and wires the post-call; not-taken side branches to
the block for inst.branch_not_taken_pc. -/
def VisitConditionalIndirectFunctionCall (env : LiftEnv) (inst : Instruction)
    (blk fresh : Nat) : List Emitted :=
  (blk, Instr.condBr fresh (fresh + 1)) ::
  (VisitDelayedInstruction env inst fresh true ++
   [(fresh, Instr.addCall Intrinsic.function_call)] ++
   VisitAfterFunctionCall env inst fresh ++
   VisitDelayedInstruction env inst (fresh + 1) false ++
   [(fresh + 1, Instr.brEdge inst.pc
      (env.GetRedirection inst.branch_not_taken_pc))])

/-- FunctionLifter::VisitConditionalBranch: split; each side lifts the
delayed instruction with its own on-taken flag and branches to its target
block. -/
def VisitConditionalBranch (env : LiftEnv) (inst : Instruction)
    (blk fresh : Nat) : List Emitted :=
  (blk, Instr.condBr fresh (fresh + 1)) ::
  (VisitDelayedInstruction env inst fresh true ++
   VisitDelayedInstruction env inst (fresh + 1) false ++
   [(fresh, Instr.brEdge inst.pc (env.GetRedirection inst.branch_taken_pc)),
    (fresh + 1, Instr.brEdge inst.pc
      (env.GetRedirection inst.branch_not_taken_pc))])

/-- FunctionLifter::VisitAsyncHyperCall: delayed instruction, then a
(non-muted) tail call to the hyper-call intrinsic. -/
def VisitAsyncHyperCall (env : LiftEnv) (inst : Instruction) (blk : Nat) :
    List Emitted :=
  VisitDelayedInstruction env inst blk true ++
  [(blk, Instr.tailCall Intrinsic.async_hyper_call false)]

/-- FunctionLifter::VisitConditionalAsyncHyperCall: split; the taken side
tail-calls the hyper-call intrinsic, the not-taken side falls through. -/
def VisitConditionalAsyncHyperCall (env : LiftEnv) (inst : Instruction)
    (blk fresh : Nat) : List Emitted :=
  (blk, Instr.condBr fresh (fresh + 1)) ::
  (VisitDelayedInstruction env inst fresh true ++
   VisitDelayedInstruction env inst (fresh + 1) false ++
   [(fresh, Instr.tailCall Intrinsic.async_hyper_call false),
    (fresh + 1, Instr.brEdge inst.pc
      (env.GetRedirection inst.branch_not_taken_pc))])

/-- The category dispatch at the end of FunctionLifter::VisitInstruction.
Note that kCategoryConditionalDirectFunctionCall is dispatched to
VisitDirectFunctionCall, exactly as the non-conditional case is. -/
def dispatchCategory (env : LiftEnv) (inst : Instruction) (blk fresh : Nat) :
    List Emitted :=
  match inst.category with
  | .kCategoryInvalid => VisitInvalid blk
  | .kCategoryError => VisitError env inst blk
  | .kCategoryNormal => VisitNormal env inst blk
  | .kCategoryNoOp => VisitNoOp env inst blk
  | .kCategoryDirectJump => VisitDirectJump env inst blk
  | .kCategoryIndirectJump => VisitIndirectJump env inst blk
  | .kCategoryConditionalIndirectJump =>
      VisitConditionalIndirectJump env inst blk fresh
  | .kCategoryFunctionReturn => VisitFunctionReturn env inst blk
  | .kCategoryConditionalFunctionReturn =>
      VisitConditionalFunctionReturn env inst blk fresh
  | .kCategoryDirectFunctionCall => VisitDirectFunctionCall env inst blk
  | .kCategoryConditionalDirectFunctionCall =>
      VisitDirectFunctionCall env inst blk
  | .kCategoryIndirectFunctionCall => VisitIndirectFunctionCall env inst blk
  | .kCategoryConditionalIndirectFunctionCall =>
      VisitConditionalIndirectFunctionCall env inst blk fresh
  | .kCategoryConditionalBranch => VisitConditionalBranch env inst blk fresh
  | .kCategoryAsyncHyperCall => VisitAsyncHyperCall env inst blk
  | .kCategoryConditionalAsyncHyperCall =>
      VisitConditionalAsyncHyperCall env inst blk fresh

/-- FunctionLifter::VisitInstruction: lift the instruction's semantics into
the block, then dispatch on its category.  The optional instrumentation
(printf logging, breakpoints) is behind flags that default to off, and the
register-type-hint visiting is modelled separately by
VisitTypedHintedRegister; neither emits control-flow instructions. -/
def VisitInstruction (env : LiftEnv) (inst : Instruction) (blk fresh : Nat) :
    List Emitted :=
  (blk, Instr.liftCurrent) :: dispatchCategory env inst blk fresh

/-- Outcome of decoding at an address inside the work-list driver:
DecodeInstructionInto failed, or it produced an instruction that is not
valid or is an error record, or it decoded a usable instruction. -/
inductive DecodeOutcome
  | failed
  | notValidOrError
  | decoded (inst : Instruction)

/-- The per-entry body of the work-list loop in
FunctionLifter::VisitInstructions, as the trace of IR it emits into the
dequeued block: first the tail-call recovery attempt (when the entry is not
the plain function entry); then the canonical-block dedupe branch; then
decode, with the muted error terminator on a decode failure or an
invalid/error instruction; else the full per-category visit.
addr_to_block gives the canonical block already recorded for an address, and
decodeAt the decoder's outcome there. -/
def VisitInstructionsStep (env : LiftEnv)
    (addr_to_block : Nat → Option Nat) (decodeAt : Nat → DecodeOutcome)
    (inst_addr from_addr blk fresh : Nat) : List Emitted :=
  let recovered : Option (List Emitted) :=
    if inst_addr != env.func_address || from_addr != 0 then
      match TryGetTargetFunctionType env.GetRedirection
        env.TryGetFunctionTypeAt inst_addr with
      | some decl =>
        if env.nativeCallOk decl.address
        then some [(blk, Instr.callNative decl.address), (blk, Instr.retMemPtr)]
        else none
      | none => none
    else none
  match recovered with
  | some evs => evs
  | none =>
    match addr_to_block inst_addr with
    | some inst_block => [(blk, Instr.brBlock inst_block)]
    | none =>
      match decodeAt inst_addr with
      | .failed => [(blk, Instr.tailCall Intrinsic.error true)]
      | .notValidOrError => [(blk, Instr.tailCall Intrinsic.error true)]
      | .decoded inst => VisitInstruction env inst blk fresh

/-- The per-lift mutable state of the FunctionLifter, at the granularity of
the maps and lists the class declares: the edge-to-block map, the work list,
the first-seen block per address, the FunctionDecl cache, the native
function cache, and the name-to-address reverse map; curr_inst is the
non-owned pointer to the instruction currently being visited. -/
structure LifterState where
  edge_to_dest_block : List ((Nat × Nat) × Nat)
  edge_work_list : List (Nat × Nat)
  addr_to_block : List (Nat × Nat)
  addr_to_decl : List (Nat × FunctionDecl)
  addr_to_func : List (Nat × Nat)
  func_name_to_address : List (String × Nat)
  curr_inst : Option Instruction
deriving DecidableEq, Repr

/-- The state reset performed at the start of FunctionLifter::LiftFunction:
addr_to_decl, addr_to_func, edge_work_list, edge_to_dest_block and
addr_to_block are cleared and curr_inst is nulled (the instruction lifter
cache and state_ptr, also reset there, are outside the modelled fields).
No other field is touched. -/
def LiftFunctionStateReset (s : LifterState) : LifterState :=
  { s with
    addr_to_decl := []
    addr_to_func := []
    edge_work_list := []
    edge_to_dest_block := []
    addr_to_block := []
    curr_inst := none }

/-- What FunctionLifter::LiftFunction returns: a null pointer; the existing,
already lifted native function; the native function as a bare declaration;
or the native function with a freshly lifted body. -/
inductive LiftResult
  | nullFunc
  | alreadyLiftedFunc
  | declarationOnly
  | liftedBody
deriving DecidableEq, Repr

/-- The outcome of one LiftFunction call: the returned result, the per-lift
state right after the entry reset, and the IR events placed into the entry
block of the semantic (lifted) function.  The subsequent evolution of the
work list is modelled separately by VisitInstructionsStep. -/
structure LiftAttempt where
  result : LiftResult
  state : LifterState
  entry_block_events : List Emitted
deriving DecidableEq, Repr

/-- Block id used for the entry block of the semantic function. -/
def entryBlockId : Nat := 0

/-- FunctionLifter::LiftFunction, at the level of its entry checks and entry
block: clear the per-lift state; query the byte at the entry address and
return null when the address is invalid or non-executable; return the
existing native function when it already has a body; return a bare
declaration when the entry byte itself is unavailable; otherwise build the
semantic function, whose entry block stores the pc argument into NEXT_PC and
PC and then branches to the block for the edge (0, entry address) —
GetOrCreateBlock is called with curr_inst null, so the from-pc of the edge is
0, and no redirection is applied.  already_lifted stands for the source test
!native_func->isDeclaration(). -/
def LiftFunction (mem : MemoryProvider) (already_lifted : Bool)
    (s : LifterState) (decl : FunctionDecl) : LiftAttempt :=
  let s := LiftFunctionStateReset s
  let q := mem decl.address
  if !(MemoryProvider.IsValidAddress q.avail) ||
     !(MemoryProvider.IsExecutable q.perms) then
    { result := LiftResult.nullFunc, state := s, entry_block_events := [] }
  else if already_lifted then
    { result := LiftResult.alreadyLiftedFunc, state := s,
      entry_block_events := [] }
  else if !(MemoryProvider.HasByte q.avail) then
    { result := LiftResult.declarationOnly, state := s,
      entry_block_events := [] }
  else
    { result := LiftResult.liftedBody, state := s,
      entry_block_events :=
        [(entryBlockId, Instr.storeNextPC PCValue.pcArg),
         (entryBlockId, Instr.storePC PCValue.pcArg),
         (entryBlockId, Instr.brEdge 0 decl.address)] }

/-- Modelled from the spec: kTypeHintFunctionPrefix is declared in ABI.h,
which is not among these sources; the spec fixes the sentinel name scheme
as the string below followed by the mangled goal type. -/
def typeHintFunctionPfx : String := "__anvill_type_"

/-- The facts about a register that VisitTypedHintedRegister branches on:
whether EnclosingRegister() returns the register itself, whether its type is
an integer of the architecture's address size, and whether it is the
architecture's stack-pointer register (the last is recorded only so that the
claims about it can be stated; the source function never inspects it). -/
structure RegisterInfo where
  is_enclosing : Bool
  is_pointer_sized_int : Bool
  is_stack_pointer : Bool
deriving DecidableEq, Repr

/-- IR events emitted by the register-type-hint machinery. -/
inductive TaintEvent
  | loadReg
  | storeConcreteValue (v : Nat)
  | callTaintFunction (func_name : String) (read_none : Bool)
  | ptrToIntCast
  | storeReg
deriving DecidableEq, Repr

/-- FunctionLifter::GetOrCreateTaintedFunction: the function is named by the
type-hint name scheme applied to the translated goal type; if a function of
that name already exists in the semantics module it is returned as is,
otherwise a fresh one is created and marked read-none.  The module is the
list of (name, read-none flag) pairs of its functions. -/
def GetOrCreateTaintedFunction (module : List (String × Bool))
    (goal_type_name : String) : (String × Bool) × List (String × Bool) :=
  let func_name := typeHintFunctionPfx ++ goal_type_name
  match module.find? (fun f => f.1 == func_name) with
  | some f => (f, module)
  | none => ((func_name, true), (func_name, true) :: module)

/-- FunctionLifter::VisitTypedHintedRegister: do nothing unless the hinted
register is its own enclosing register and has pointer-sized integer type;
optionally store the provided concrete value (the source also emits a load
that the constant immediately replaces); then, when the hinted type is a
pointer, load the register value if it is not already at hand, call the
tainted type function on it, cast the result back with ptrtoint, and store
it into the register.  Returns the emitted events and the updated module.
goal_type_name stands for the output of TranslateType on the goal type. -/
def VisitTypedHintedRegister (store_inferred_register_values : Bool)
    (module : List (String × Bool)) (reg : RegisterInfo)
    (type_is_pointer : Bool) (goal_type_name : String)
    (maybe_value : Option Nat) : List TaintEvent × List (String × Bool) :=
  if !(reg.is_enclosing && reg.is_pointer_sized_int) then ([], module)
  else
    let store_events :=
      match maybe_value with
      | some v =>
        if store_inferred_register_values
        then [TaintEvent.loadReg, TaintEvent.storeConcreteValue v]
        else []
      | none => []
    let have_reg_value := store_inferred_register_values && maybe_value.isSome
    if !type_is_pointer then (store_events, module)
    else
      let load_events := if have_reg_value then [] else [TaintEvent.loadReg]
      let fm := GetOrCreateTaintedFunction module goal_type_name
      (store_events ++ load_events ++
        [TaintEvent.callTaintFunction fm.1.1 fm.1.2, TaintEvent.ptrToIntCast,
         TaintEvent.storeReg],
       fm.2)

/-- Whether an emitted instruction respects state-escape muting: a tail call
to the error or the function-return intrinsic must carry a muted (undef)
state pointer; every other event is unconstrained. -/
def mutedOK : Emitted → Bool
  | (_, Instr.tailCall Intrinsic.error m) => m
  | (_, Instr.tailCall Intrinsic.function_return m) => m
  | _ => true

/-- Whether an emitted instruction is a call introduced for a function-call
instruction (a spliced native call or a call-intrinsic call). -/
def isCallEvent : Instr → Bool
  | Instr.addCall _ => true
  | Instr.callNative _ => true
  | _ => false

/-- The control-flow shape claim C1 asserts for a conditional direct call:
the block splits on the branch-taken condition, every call event sits on the
taken side, and the not-taken side branches to the block for
inst.branch_not_taken_pc and carries no call. -/
def SplitsCallOnTakenPath (tr : List Emitted) (blk : Nat) (env : LiftEnv)
    (inst : Instruction) : Prop :=
  ∃ taken not_taken : Nat,
    (blk, Instr.condBr taken not_taken) ∈ tr ∧
    (∀ e ∈ tr, isCallEvent e.2 = true → e.1 = taken) ∧
    (not_taken,
      Instr.brEdge inst.pc (env.GetRedirection inst.branch_not_taken_pc)) ∈ tr ∧
    (∀ e ∈ tr, e.1 = not_taken → isCallEvent e.2 = false)

/-- A memory provider whose every byte is available and
readable-executable. -/
def memAllRX : MemoryProvider := fun _ =>
  { byte := (0 : Fin 256), avail := ByteAvailability.kAvailable,
    perms := BytePermission.kReadableExecutable }

/-- A memory provider whose every byte is a valid address with executable
permissions but with the byte itself unavailable. -/
def memUnavailRX : MemoryProvider := fun _ =>
  { byte := (0 : Fin 256), avail := ByteAvailability.kUnavailable,
    perms := BytePermission.kReadableExecutable }

/-- A concrete visitor environment: identity redirection, a type provider
with no declarations, failing native-call lowering, non-SPARC, fully
available executable memory, no delay slots. -/
def envC1 : LiftEnv :=
  { GetRedirection := id
    TryGetFunctionTypeAt := fun _ => none
    nativeCallOk := fun _ => false
    is_sparc := false
    mem := memAllRX
    MayHaveDelaySlot := fun _ => false
    NextInstructionIsDelayed := fun _ _ => false
    func_address := 4096 }

/-- A concrete conditional direct call instruction at the entry address. -/
def instC1 : Instruction :=
  { pc := 4096
    next_pc := 4101
    delayed_pc := 0
    branch_taken_pc := 8192
    branch_not_taken_pc := 4101
    category := Category.kCategoryConditionalDirectFunctionCall }

/-- A concrete function declaration at address 4096. -/
def declEntry : FunctionDecl :=
  { address := 4096, type := 1, calling_convention := 0 }

/-- A concrete per-lift state left over by a previous lift, with a nonempty
name-to-address reverse map. -/
def priorLifterState : LifterState :=
  { edge_to_dest_block := [((0, 4096), 1)]
    edge_work_list := [(4096, 0)]
    addr_to_block := [(4096, 1)]
    addr_to_decl := [(4096, declEntry)]
    addr_to_func := [(4096, 2)]
    func_name_to_address := [("sub_1000_X_0", 4096)]
    curr_inst := none }

/-- A two-byte architecture whose decoders are irrelevant stubs external to
the lifter (the decoders are external components in the source as well). -/
def archTwoByte : Arch :=
  { MaxInstructionSize := 2
    DecodeInstruction := fun _ _ => none
    DecodeDelayedInstruction := fun _ _ => none }

/-- A type provider that knows a declaration only at address 3. -/
def tpAtThree : Nat → Option FunctionDecl := fun n =>
  if n = 3 then some { address := 3, type := 5, calling_convention := 2 }
  else none

/-- Whether an emitted instruction is anything but a conditional split. -/
def notCondBrOK : Emitted → Bool
  | (_, Instr.condBr _ _) => false
  | _ => true

/-- A byte passes accumulate_inst_byte exactly when it is Available and its
permissions pass the executable switch. -/
theorem accumulateOk_iff (q : ByteQuery) :
    accumulateOk q = true ↔
      q.avail = ByteAvailability.kAvailable ∧ permOkForDecode q.perms = true := by
  cases q with
  | mk byte avail perms =>
    cases avail <;> simp [accumulateOk, availOkForDecode]

/-- The accumulation loop never gathers more bytes than it has iterations. -/
theorem accumulateBytes_length_le (mem : MemoryProvider) :
    ∀ (n addr : Nat), (accumulateBytes mem addr n).length ≤ n := by
  intro n
  induction n with
  | zero => intro addr; simp [accumulateBytes]
  | succ n ih =>
    intro addr
    simp only [accumulateBytes]
    split
    · simpa using ih (addr + 1)
    · simp

/-- Every byte the accumulation loop keeps passed both the availability and
the permission test. -/
theorem accumulateBytes_ok (mem : MemoryProvider) :
    ∀ (n addr i : Nat), i < (accumulateBytes mem addr n).length →
      accumulateOk (mem (addr + i)) = true := by
  intro n
  induction n with
  | zero => intro addr i h; simp [accumulateBytes] at h
  | succ n ih =>
    intro addr i h
    simp only [accumulateBytes] at h
    by_cases hq : accumulateOk (mem addr) = true
    · rw [if_pos hq] at h
      simp only [List.length_cons] at h
      cases i with
      | zero => simpa using hq
      | succ i =>
        have := ih (addr + 1) i (by omega)
        have harith : addr + 1 + i = addr + (i + 1) := by omega
        rwa [harith] at this
    · rw [if_neg hq] at h
      simp at h

/-- When the loop stops early, the byte right after the gathered ones fails
the availability-or-permission test. -/
theorem accumulateBytes_stops (mem : MemoryProvider) :
    ∀ (n addr : Nat), (accumulateBytes mem addr n).length < n →
      accumulateOk (mem (addr + (accumulateBytes mem addr n).length)) = false := by
  intro n
  induction n with
  | zero => intro addr h; omega
  | succ n ih =>
    intro addr h
    simp only [accumulateBytes] at h ⊢
    by_cases hq : accumulateOk (mem addr) = true
    · rw [if_pos hq] at h ⊢
      simp only [List.length_cons] at h ⊢
      have hlt : (accumulateBytes mem (addr + 1) n).length < n := by omega
      have := ih (addr + 1) hlt
      have harith : addr + 1 + (accumulateBytes mem (addr + 1) n).length
          = addr + ((accumulateBytes mem (addr + 1) n).length + 1) := by omega
      rwa [harith] at this
    · rw [if_neg hq]
      simp only [List.length_nil, Nat.add_zero]
      exact Bool.not_eq_true _ ▸ Bool.of_not_eq_true hq

/-- Claim C2: DecodeInstructionInto accumulates at most the architecture's
maximum instruction size of bytes starting at addr, includes a byte only if
its availability is Available and its permission is executable, stops at the
first byte that fails either test, and hands exactly that buffer to the
normal or delayed decoder. -/
theorem claim_c2_decode_bounds (arch : Arch) (mem : MemoryProvider)
    (addr : Nat) (is_delayed : Bool) :
    DecodeInstructionInto arch mem addr is_delayed =
      (if is_delayed then arch.DecodeDelayedInstruction
       else arch.DecodeInstruction) addr
        (accumulateBytes mem addr arch.MaxInstructionSize)
    ∧ (accumulateBytes mem addr arch.MaxInstructionSize).length ≤
        arch.MaxInstructionSize
    ∧ (∀ i, i < (accumulateBytes mem addr arch.MaxInstructionSize).length →
        (mem (addr + i)).avail = ByteAvailability.kAvailable ∧
        MemoryProvider.IsExecutable (mem (addr + i)).perms = true)
    ∧ ((accumulateBytes mem addr arch.MaxInstructionSize).length <
          arch.MaxInstructionSize →
        ¬((mem (addr + (accumulateBytes mem addr
              arch.MaxInstructionSize).length)).avail =
            ByteAvailability.kAvailable ∧
          MemoryProvider.IsExecutable (mem (addr + (accumulateBytes mem addr
              arch.MaxInstructionSize).length)).perms = true)) := by
  refine ⟨?_, accumulateBytes_length_le mem _ _, ?_, ?_⟩
  · cases is_delayed <;> rfl
  · intro i hi
    have := accumulateBytes_ok mem arch.MaxInstructionSize addr i hi
    exact (accumulateOk_iff _).mp this
  · intro hlt hcontra
    have hstop := accumulateBytes_stops mem arch.MaxInstructionSize addr hlt
    have := (accumulateOk_iff _).mpr hcontra
    rw [this] at hstop
    cases hstop

/-- Claim C2 witness: on fully available executable memory the accumulated
buffer is nonempty, so the per-byte conjunct of the claim theorem applies at
index 0. -/
theorem claim_c2_decode_bounds_witness :
    0 < (accumulateBytes memAllRX 0 archTwoByte.MaxInstructionSize).length ∧
    (memAllRX (0 + 0)).avail = ByteAvailability.kAvailable ∧
    MemoryProvider.IsExecutable (memAllRX (0 + 0)).perms = true :=
  ⟨by decide,
   (claim_c2_decode_bounds archTwoByte memAllRX 0 false).2.2.1 0 (by decide)⟩

/-- Claim C3 counterexample: the function-name-to-address reverse map is not
cleared by the reset at the start of LiftFunction; a nonempty map left by a
previous lift survives. -/
theorem claim_c3_counterexample :
    (LiftFunction memAllRX false priorLifterState declEntry).state.func_name_to_address ≠ [] := by
  decide

/-- Claim C3 (amended): at the start of every LiftFunction call the
edge-to-block map, the work list, the address-to-block map, the FunctionDecl
cache and the native-function cache are reset to empty and curr_inst is
nulled, but the function-name-to-address reverse map is left untouched. -/
theorem claim_c3_state_reset (s : LifterState) :
    (LiftFunctionStateReset s).edge_to_dest_block = [] ∧
    (LiftFunctionStateReset s).edge_work_list = [] ∧
    (LiftFunctionStateReset s).addr_to_block = [] ∧
    (LiftFunctionStateReset s).addr_to_decl = [] ∧
    (LiftFunctionStateReset s).addr_to_func = [] ∧
    (LiftFunctionStateReset s).curr_inst = none ∧
    (LiftFunctionStateReset s).func_name_to_address = s.func_name_to_address ∧
    (∀ (mem : MemoryProvider) (already_lifted : Bool) (decl : FunctionDecl),
      (LiftFunction mem already_lifted s decl).state = LiftFunctionStateReset s) := by
  refine ⟨rfl, rfl, rfl, rfl, rfl, rfl, rfl, ?_⟩
  intro mem already_lifted decl
  simp only [LiftFunction]
  split
  · rfl
  · split
    · rfl
    · split <;> rfl

/-- Claim C5: target resolution queries the type provider first at the
redirected address, falls back to the original address only when the first
query failed and the address was actually redirected, and always rewrites the
address field of a found declaration to the redirected address. -/
theorem claim_c5_target_resolution (GetRedirection : Nat → Nat)
    (tp : Nat → Option FunctionDecl) (a : Nat) :
    (∀ d, tp (GetRedirection a) = some d →
       TryGetTargetFunctionType GetRedirection tp a =
         some { d with address := GetRedirection a })
    ∧ (tp (GetRedirection a) = none → GetRedirection a ≠ a →
       TryGetTargetFunctionType GetRedirection tp a =
         (tp a).map (fun d => { d with address := GetRedirection a }))
    ∧ (tp (GetRedirection a) = none → GetRedirection a = a →
       TryGetTargetFunctionType GetRedirection tp a = none)
    ∧ (∀ d, TryGetTargetFunctionType GetRedirection tp a = some d →
       d.address = GetRedirection a) := by
  refine ⟨?_, ?_, ?_, ?_⟩
  · intro d hd
    simp [TryGetTargetFunctionType, hd]
  · intro hnone hne
    simp only [TryGetTargetFunctionType, hnone, Option.isNone_none,
      Bool.true_and, bne_iff_ne, ne_eq, hne, not_false_eq_true, if_true]
    cases h : tp a <;> simp [h]
  · intro hnone heq
    have hnone' : tp a = none := heq ▸ hnone
    simp [TryGetTargetFunctionType, hnone, heq, hnone']
  · intro d hd
    simp only [TryGetTargetFunctionType] at hd
    rcases h : (if ((tp (GetRedirection a)).isNone &&
          (GetRedirection a != a)) = true
        then tp a else tp (GetRedirection a)) with _ | d0
    · rw [h] at hd; simp at hd
    · rw [h] at hd
      simp only [Option.some.injEq] at hd
      rw [← hd]

/-- Claim C5 witness: with a redirection sending every address to 7 and a
type provider that only knows address 3, resolving address 3 queries 7
first, falls back to 3, and returns the declaration with its address field
rewritten to 7. -/
theorem claim_c5_target_resolution_witness :
    TryGetTargetFunctionType (fun _ => 7) tpAtThree 3 =
      some { address := 7, type := 5, calling_convention := 2 } := by
  have h := (claim_c5_target_resolution (fun _ => 7) tpAtThree 3).2.1
    (by decide) (by decide)
  simpa [tpAtThree] using h

/-- The SPARC scan obtains a byte exactly when it is available and
executable, and then obtains the provider's byte. -/
theorem queryExecByte_eq (mem : MemoryProvider) (a : Nat) :
    queryExecByte mem a =
      if byteAvailableExecutable mem a then some (mem a).byte else none := by
  unfold queryExecByte byteAvailableExecutable
  cases h : (mem a).avail <;> simp [availOkForDecode, h]

/-- Claim C6: on a non-SPARC architecture LoadFunctionReturnAddress always
returns the default (branch_not_taken_pc and the unmodified return PC); on
SPARC it returns branch_not_taken_pc plus four and the return PC adjusted by
four exactly when all four bytes at branch_not_taken_pc are available,
executable, and encode an unimp instruction (op = 0 and op2 = 0), and the
default otherwise. -/
theorem claim_c6_sparc_return_address (mem : MemoryProvider) (pc : Nat) :
    LoadFunctionReturnAddress false mem pc = (pc, 0)
    ∧ LoadFunctionReturnAddress true mem pc =
        (if fourBytesAvailableExecutable mem pc &&
            isUnimpEncoding (fourByteWord mem pc)
         then (pc + 4, 4) else (pc, 0)) := by
  constructor
  · simp [LoadFunctionReturnAddress]
  · simp only [LoadFunctionReturnAddress, queryExecByte_eq, Bool.not_true,
      fourBytesAvailableExecutable, fourByteWord, isUnimpEncoding,
      Bool.false_eq_true, if_false]
    by_cases h0 : byteAvailableExecutable mem pc <;>
    by_cases h1 : byteAvailableExecutable mem (pc + 1) <;>
    by_cases h2 : byteAvailableExecutable mem (pc + 2) <;>
    by_cases h3 : byteAvailableExecutable mem (pc + 3) <;>
      simp [h0, h1, h2, h3, Bool.and_eq_true, decide_eq_true_eq]

/-- Claim C7: LiftFunction returns a null result exactly when the entry
address is invalid or its permissions are not executable; when the entry is
valid and executable but the byte itself is unavailable (and the function
was not already lifted), the result is a bare declaration with no body
events.  The IsValidAddress/IsExecutable/HasByte helpers are modelled from
the spec, their header not being among these sources. -/
theorem claim_c7_entry_byte_checks (mem : MemoryProvider)
    (already_lifted : Bool) (s : LifterState) (decl : FunctionDecl) :
    ((LiftFunction mem already_lifted s decl).result = LiftResult.nullFunc ↔
       (MemoryProvider.IsValidAddress (mem decl.address).avail = false ∨
        MemoryProvider.IsExecutable (mem decl.address).perms = false))
    ∧ (MemoryProvider.IsValidAddress (mem decl.address).avail = true →
       MemoryProvider.IsExecutable (mem decl.address).perms = true →
       MemoryProvider.HasByte (mem decl.address).avail = false →
       already_lifted = false →
       (LiftFunction mem already_lifted s decl).result =
           LiftResult.declarationOnly ∧
       (LiftFunction mem already_lifted s decl).entry_block_events = []) := by
  constructor
  · cases hv : MemoryProvider.IsValidAddress (mem decl.address).avail <;>
      cases he : MemoryProvider.IsExecutable (mem decl.address).perms <;>
      cases already_lifted <;>
      cases hb : MemoryProvider.HasByte (mem decl.address).avail <;>
      simp [LiftFunction, hv, he, hb]
  · intro hv he hb hal
    subst hal
    simp [LiftFunction, hv, he, hb]

/-- Claim C7 witness: at an entry whose byte is a valid, executable address
with the byte itself unavailable, a fresh lift yields a declaration only. -/
theorem claim_c7_entry_byte_checks_witness :
    (LiftFunction memUnavailRX false priorLifterState declEntry).result =
        LiftResult.declarationOnly ∧
    (LiftFunction memUnavailRX false priorLifterState declEntry).entry_block_events = [] :=
  (claim_c7_entry_byte_checks memUnavailRX false priorLifterState declEntry).2
    (by decide) (by decide) (by decide) rfl

/-- Claim C9: whenever LiftFunction builds a body, the entry block of the
semantic function stores the pc argument into the NEXT_PC and PC
pseudo-registers and only then branches unconditionally to the block created
for the edge from 0 to the function's entry address. -/
theorem claim_c9_entry_block (mem : MemoryProvider) (already_lifted : Bool)
    (s : LifterState) (decl : FunctionDecl) :
    (LiftFunction mem already_lifted s decl).result = LiftResult.liftedBody →
    (LiftFunction mem already_lifted s decl).entry_block_events =
      [(entryBlockId, Instr.storeNextPC PCValue.pcArg),
       (entryBlockId, Instr.storePC PCValue.pcArg),
       (entryBlockId, Instr.brEdge 0 decl.address)] := by
  simp only [LiftFunction]
  split
  · intro h; cases h
  · split
    · intro h; cases h
    · split
      · intro h; cases h
      · intro _; rfl

/-- Claim C9 witness: a fresh lift on fully available executable memory
builds a body, and its entry block has exactly the two pseudo-register
stores followed by the branch to the entry address block. -/
theorem claim_c9_entry_block_witness :
    (LiftFunction memAllRX false priorLifterState declEntry).result =
        LiftResult.liftedBody ∧
    (LiftFunction memAllRX false priorLifterState declEntry).entry_block_events =
      [(entryBlockId, Instr.storeNextPC PCValue.pcArg),
       (entryBlockId, Instr.storePC PCValue.pcArg),
       (entryBlockId, Instr.brEdge 0 declEntry.address)] :=
  ⟨by decide,
   claim_c9_entry_block memAllRX false priorLifterState declEntry (by decide)⟩

/-- Claim C10: when the native function already has a body and the entry is
a valid executable address (which holds in every reachable configuration,
since the memory provider is pure and a body can only have been built after
those same checks passed), LiftFunction returns the existing function at
once and emits nothing. -/
theorem claim_c10_already_lifted (mem : MemoryProvider) (s : LifterState)
    (decl : FunctionDecl) :
    MemoryProvider.IsValidAddress (mem decl.address).avail = true →
    MemoryProvider.IsExecutable (mem decl.address).perms = true →
    (LiftFunction mem true s decl).result = LiftResult.alreadyLiftedFunc ∧
    (LiftFunction mem true s decl).entry_block_events = [] := by
  intro hv he
  simp [LiftFunction, hv, he]

/-- Claim C10 witness: a second lift of an already lifted function on fully
available executable memory returns the existing function with no events. -/
theorem claim_c10_already_lifted_witness :
    (LiftFunction memAllRX true priorLifterState declEntry).result =
        LiftResult.alreadyLiftedFunc ∧
    (LiftFunction memAllRX true priorLifterState declEntry).entry_block_events = [] :=
  claim_c10_already_lifted memAllRX priorLifterState declEntry
    (by decide) (by decide)

/-- Delay-slot lifting emits no tail calls, so muting holds vacuously. -/
theorem mutedOK_VisitDelayedInstruction (env : LiftEnv) (inst : Instruction)
    (blk : Nat) (on_taken_path : Bool) :
    (VisitDelayedInstruction env inst blk on_taken_path).all mutedOK = true := by
  unfold VisitDelayedInstruction
  split <;> simp [mutedOK]

/-- CallFunction emits only non-tail calls, so muting holds vacuously. -/
theorem mutedOK_CallFunction (env : LiftEnv) (inst : Instruction) (blk : Nat) :
    (CallFunction env inst blk).all mutedOK = true := by
  unfold CallFunction
  split
  · split <;> simp [mutedOK]
  · simp [mutedOK]

/-- Post-call wiring emits stores and a branch, so muting holds vacuously. -/
theorem mutedOK_VisitAfterFunctionCall (env : LiftEnv) (inst : Instruction)
    (blk : Nat) :
    (VisitAfterFunctionCall env inst blk).all mutedOK = true := by
  simp [VisitAfterFunctionCall, mutedOK]

/-- Every per-category visitor mutes the state pointer of each tail call it
emits to the error or the function-return intrinsic. -/
theorem mutedOK_dispatchCategory (env : LiftEnv) (inst : Instruction)
    (blk fresh : Nat) :
    (dispatchCategory env inst blk fresh).all mutedOK = true := by
  unfold dispatchCategory
  cases inst.category <;>
    simp [VisitInvalid, VisitError, VisitNormal, VisitNoOp, VisitDirectJump,
      VisitIndirectJump, VisitConditionalIndirectJump, VisitFunctionReturn,
      VisitConditionalFunctionReturn, VisitDirectFunctionCall,
      VisitIndirectFunctionCall, VisitConditionalIndirectFunctionCall,
      VisitConditionalBranch, VisitAsyncHyperCall,
      VisitConditionalAsyncHyperCall, List.all_append,
      mutedOK_VisitDelayedInstruction, mutedOK_CallFunction,
      mutedOK_VisitAfterFunctionCall, mutedOK]

/-- Claim C4: over one full work-list step — tail-call recovery, dedupe
branch, decode failure, invalid or error instruction, and the per-category
dispatch — every emitted tail call to the error or the function-return
intrinsic carries a muted (undef) state-pointer argument. -/
theorem claim_c4_state_escape_muting (env : LiftEnv)
    (addr_to_block : Nat → Option Nat) (decodeAt : Nat → DecodeOutcome)
    (inst_addr from_addr blk fresh : Nat) :
    (VisitInstructionsStep env addr_to_block decodeAt inst_addr from_addr blk
      fresh).all mutedOK = true := by
  simp only [VisitInstructionsStep]
  split
  · rename_i evs h
    split at h
    · split at h
      · split at h
        · cases h
          simp [mutedOK]
        · cases h
      · cases h
    · cases h
  · cases addr_to_block inst_addr with
    | some b => simp [mutedOK]
    | none =>
      cases decodeAt inst_addr with
      | failed => simp [mutedOK]
      | notValidOrError => simp [mutedOK]
      | decoded inst =>
        simp [VisitInstruction, mutedOK, mutedOK_dispatchCategory]

/-- The delay-slot events are never conditional splits. -/
theorem notCondBr_VisitDelayedInstruction (env : LiftEnv) (inst : Instruction)
    (blk : Nat) (on_taken_path : Bool) :
    (VisitDelayedInstruction env inst blk on_taken_path).all notCondBrOK = true := by
  unfold VisitDelayedInstruction
  split <;> simp [notCondBrOK]

/-- CallFunction never emits a conditional split. -/
theorem notCondBr_CallFunction (env : LiftEnv) (inst : Instruction)
    (blk : Nat) :
    (CallFunction env inst blk).all notCondBrOK = true := by
  unfold CallFunction
  split
  · split <;> simp [notCondBrOK]
  · simp [notCondBrOK]

/-- The post-call wiring never emits a conditional split. -/
theorem notCondBr_VisitAfterFunctionCall (env : LiftEnv) (inst : Instruction)
    (blk : Nat) :
    (VisitAfterFunctionCall env inst blk).all notCondBrOK = true := by
  simp [VisitAfterFunctionCall, notCondBrOK]

/-- The unconditional direct-call visitor never emits a conditional split. -/
theorem notCondBr_VisitDirectFunctionCall (env : LiftEnv) (inst : Instruction)
    (blk : Nat) :
    (VisitDirectFunctionCall env inst blk).all notCondBrOK = true := by
  simp [VisitDirectFunctionCall, List.all_append,
    notCondBr_VisitDelayedInstruction, notCondBr_CallFunction,
    notCondBr_VisitAfterFunctionCall]

/-- Claim C1 counterexample: for a concrete conditional direct call the
lifter's dispatch emits no split at all — the trace produced for the
instruction contains no conditional branch, so the split-on-condition shape
the claim asserts cannot hold. -/
theorem claim_c1_counterexample :
    ¬ SplitsCallOnTakenPath (VisitInstruction envC1 instC1 0 1) 0 envC1 instC1 := by
  rintro ⟨taken, not_taken, hmem, -, -, -⟩
  have hall : (VisitInstruction envC1 instC1 0 1).all notCondBrOK = true := by
    have hd : dispatchCategory envC1 instC1 0 1 =
        VisitDirectFunctionCall envC1 instC1 0 := rfl
    simp [VisitInstruction, hd, notCondBrOK, notCondBr_VisitDirectFunctionCall]
  have := List.all_eq_true.mp hall _ hmem
  simp [notCondBrOK] at this

/-- Claim C1 (amended): an instruction of category
ConditionalDirectFunctionCall is dispatched exactly like an unconditional
DirectFunctionCall — the call (resolved via target resolution, else the call
intrinsic) and the post-call wiring are emitted unconditionally into the
instruction's own block, and no conditional split is emitted on either
path. -/
theorem claim_c1_cond_call_dispatch (env : LiftEnv) (inst : Instruction)
    (blk fresh : Nat) :
    inst.category = Category.kCategoryConditionalDirectFunctionCall →
    VisitInstruction env inst blk fresh =
      (blk, Instr.liftCurrent) :: VisitDirectFunctionCall env inst blk ∧
    (VisitInstruction env inst blk fresh).all notCondBrOK = true := by
  intro hcat
  have hd : dispatchCategory env inst blk fresh =
      VisitDirectFunctionCall env inst blk := by
    simp only [dispatchCategory, hcat]
  constructor
  · simp [VisitInstruction, hd]
  · simp [VisitInstruction, hd, notCondBrOK, notCondBr_VisitDirectFunctionCall]

/-- Claim C1 witness: the concrete conditional direct call instruction is
dispatched to the unconditional direct-call visitor. -/
theorem claim_c1_cond_call_dispatch_witness :
    instC1.category = Category.kCategoryConditionalDirectFunctionCall ∧
    VisitInstruction envC1 instC1 0 1 =
      (0, Instr.liftCurrent) :: VisitDirectFunctionCall envC1 instC1 0 :=
  ⟨rfl, (claim_c1_cond_call_dispatch envC1 instC1 0 1 rfl).1⟩

/-- Claim C8 counterexample: the source function never tests whether the
hinted register is the stack pointer; a pointer-typed hint at a top-level
pointer-sized register marked as the stack pointer still emits the taint
machinery, contradicting the claim that nothing is emitted there. -/
theorem claim_c8_counterexample :
    (VisitTypedHintedRegister false []
      { is_enclosing := true, is_pointer_sized_int := true,
        is_stack_pointer := true }
      true "p" none).1 ≠ [] := by
  decide

/-- Claim C8 (amended): the hint machinery acts only on top-level
pointer-sized integer registers (with no stack-pointer exclusion), and when
the hinted type is a pointer it ends by calling the tainted-type function —
named by the type-hint name scheme applied to the mangled goal type, and
created read-none when it does not already exist — casting the result back,
and storing it into the register. -/
theorem claim_c8_typed_hint (store_inferred : Bool)
    (module : List (String × Bool)) (reg : RegisterInfo)
    (type_is_pointer : Bool) (goal : String) (mv : Option Nat) :
    (reg.is_enclosing = false ∨ reg.is_pointer_sized_int = false →
      VisitTypedHintedRegister store_inferred module reg type_is_pointer goal mv
        = ([], module))
    ∧ (reg.is_enclosing = true → reg.is_pointer_sized_int = true →
       type_is_pointer = true →
       ∃ pre rn,
         (VisitTypedHintedRegister store_inferred module reg type_is_pointer
             goal mv).1
           = pre ++ [TaintEvent.callTaintFunction (typeHintFunctionPfx ++ goal) rn,
               TaintEvent.ptrToIntCast, TaintEvent.storeReg]
         ∧ (module.find? (fun f => f.1 == typeHintFunctionPfx ++ goal) = none →
            rn = true)) := by
  constructor
  · intro h
    unfold VisitTypedHintedRegister
    rcases h with h | h <;> simp [h]
  · intro he hp ht
    unfold VisitTypedHintedRegister GetOrCreateTaintedFunction
    rw [he, hp, ht]
    simp only [Bool.and_self, Bool.not_true, Bool.false_eq_true, if_false,
      ite_false]
    cases hf : module.find? (fun f => f.1 == typeHintFunctionPfx ++ goal) with
    | none =>
      exact ⟨_, true, rfl, fun _ => rfl⟩
    | some f =>
      have hname : f.1 = typeHintFunctionPfx ++ goal := by
        have := List.find?_some hf
        simpa [beq_iff_eq] using this
      refine ⟨(match mv with
          | some v =>
            if store_inferred = true
            then [TaintEvent.loadReg, TaintEvent.storeConcreteValue v]
            else []
          | none => []) ++
          (if (store_inferred && mv.isSome) = true then []
           else [TaintEvent.loadReg]),
        f.2, ?_, fun hc => ?_⟩
      · rw [← hname]
      · cases hc

/-- Claim C8 witness: a pointer-typed hint at a concrete top-level
pointer-sized register emits the taint call, the cast, and the store, with
the prefixed function name. -/
theorem claim_c8_typed_hint_witness :
    ∃ pre rn,
      (VisitTypedHintedRegister false []
        { is_enclosing := true, is_pointer_sized_int := true,
          is_stack_pointer := false }
        true "p" none).1
        = pre ++ [TaintEvent.callTaintFunction (typeHintFunctionPfx ++ "p") rn,
            TaintEvent.ptrToIntCast, TaintEvent.storeReg] := by
  obtain ⟨pre, rn, h1, -⟩ :=
    (claim_c8_typed_hint false []
      { is_enclosing := true, is_pointer_sized_int := true,
        is_stack_pointer := false }
      true "p" none).2 rfl rfl rfl
  exact ⟨pre, rn, h1⟩

end Anvill
